import Mathlib

/-!
Verification development for the spike-cassowary repository.

The repository's own source (src/main.rs) is a thin layout layer (Layout,
Element, Rect and the demo in main) over an incremental cassowary-style
linear constraint solver.  The solver itself is not part of the repository
source tree, so its data model and algorithms are modelled from the
specification (sections 3-7): variables, linear expressions, strengths,
the tableau of basic rows, slack/error/dummy symbols, constraint
insertion with artificial variables, edit variables with suggestion and
dual re-optimization, and snapshot-based change extraction.  The layout
layer is translated directly from src/main.rs.

All arithmetic is exact rational arithmetic.  The Batteries rational
operations add/sub/mul/inv are marked irreducible, so evaluable clones
(qAdd, qSub, qMul, qDiv, qAbs) are defined below via mkRat/divInt and
proved equal to the standard operations.
-/

set_option maxRecDepth 8000
set_option maxHeartbeats 4000000

/-- Evaluable rational addition (same value as `+` on `ℚ`). -/
def qAdd (a b : ℚ) : ℚ := mkRat (a.num * b.den + b.num * a.den) (a.den * b.den)

/-- Evaluable rational subtraction (same value as `-` on `ℚ`). -/
def qSub (a b : ℚ) : ℚ := qAdd a (-b)

/-- Evaluable rational multiplication (same value as `*` on `ℚ`). -/
def qMul (a b : ℚ) : ℚ := mkRat (a.num * b.num) (a.den * b.den)

/-- Evaluable rational division (same value as `/` on `ℚ`, with `qDiv a 0 = 0`). -/
def qDiv (a b : ℚ) : ℚ := Rat.divInt (a.num * b.den) (a.den * b.num)

/-- Evaluable absolute value on `ℚ`. -/
def qAbs (a : ℚ) : ℚ := if a < 0 then -a else a

theorem qAdd_eq (a b : ℚ) : qAdd a b = a + b := by
  rw [qAdd, Rat.add_def]
  simp [Rat.normalize_eq_mkRat]

theorem qSub_eq (a b : ℚ) : qSub a b = a - b := by
  rw [qSub, qAdd_eq, sub_eq_add_neg]

theorem qMul_eq (a b : ℚ) : qMul a b = a * b := by
  rw [qMul, Rat.mul_def]
  simp [Rat.normalize_eq_mkRat]

theorem qDiv_eq (a b : ℚ) : qDiv a b = a / b := by
  rw [qDiv, Rat.divInt_eq_div]
  push_cast
  rcases eq_or_ne b 0 with hb | hb
  · subst hb
    simp
  · have had : ((a.den : ℚ)) ≠ 0 := by exact_mod_cast a.den_nz
    have hbd : ((b.den : ℚ)) ≠ 0 := by exact_mod_cast b.den_nz
    have hbn : ((b.num : ℚ)) ≠ 0 := by exact_mod_cast Rat.num_ne_zero.mpr hb
    have ha : (a.num : ℚ) = a * a.den := (div_eq_iff had).mp (Rat.num_div_den a)
    have hb2 : (b.num : ℚ) = b * b.den := (div_eq_iff hbd).mp (Rat.num_div_den b)
    field_simp
    rw [ha, hb2]
    ring

theorem qAbs_eq (a : ℚ) : qAbs a = |a| := by
  rw [qAbs]
  split
  · exact (abs_of_neg (by assumption)).symm
  · exact (abs_of_nonneg (le_of_not_lt (by assumption))).symm

/-! ### Solver data model

Modelled from the spec: section 3 (data model) and section 4 (component
design).  Variables are opaque identifiers; symbols are the solver's
internal identities for external variables and for the slack, error and
dummy auxiliaries; a row maps a basic symbol to a linear form over
nonbasic symbols. -/

/-- A variable is an opaque unique identity for one real-valued unknown. -/
abbrev Var := Nat

/-- Modelled from the spec: internal symbol kinds of the tableau
(external variable, slack, error, dummy). -/
inductive SymbolKind where
  | external
  | slack
  | error
  | dummy
deriving DecidableEq

/-- Modelled from the spec: a tableau symbol, an internal solver identity. -/
structure TabSymbol where
  kind : SymbolKind
  sid : Nat
deriving DecidableEq

/-- Modelled from the spec: a tableau row, a constant plus a linear form
over nonbasic symbols (an association list without duplicate keys). -/
structure Row where
  cells : List (TabSymbol × ℚ)
  const : ℚ
deriving DecidableEq

/-- Association list lookup (first match). -/
def alookup {α β : Type} [DecidableEq α] (k : α) : List (α × β) → Option β
  | [] => none
  | p :: t => if p.1 = k then some p.2 else alookup k t

/-- Association list: remove every pair with the given key. -/
def alErase {α β : Type} [DecidableEq α] (k : α) (l : List (α × β)) : List (α × β) :=
  l.filter (fun p => decide (p.1 ≠ k))

/-- Association list: replace the value at a key (first occurrence). -/
def alUpdate {α β : Type} [DecidableEq α] (k : α) (b : β) : List (α × β) → List (α × β)
  | [] => []
  | p :: t => if p.1 = k then (k, b) :: t else p :: alUpdate k b t

/-- Overwrite-extend an association list: later entries of the update
list shadow earlier ones and the base (models HashMap::extend). -/
def extendAL {α β : Type} (m : List (α × β)) (cs : List (α × β)) : List (α × β) :=
  cs.foldl (fun acc p => p :: acc) m

/-- Modelled from the spec: the fixed floating tolerance 1e-8. -/
def solverTol : ℚ := mkRat 1 100000000

/-- Modelled from the spec: a coefficient within the fixed tolerance of zero
is treated as zero. -/
def nearZero (a : ℚ) : Bool := decide (qAbs a < solverTol)

/-- Insert a coefficient for a symbol into row cells, summing with any
existing coefficient and dropping the cell when the result is near zero. -/
def cellsInsert (s : TabSymbol) (c : ℚ) : List (TabSymbol × ℚ) → List (TabSymbol × ℚ)
  | [] => if nearZero c then [] else [(s, c)]
  | p :: t =>
    if p.1 = s then
      (if nearZero (qAdd p.2 c) then t else (s, qAdd p.2 c) :: t)
    else
      p :: cellsInsert s c t

/-- Add a coefficient times a symbol to a row. -/
def Row.insertSymbol (r : Row) (s : TabSymbol) (c : ℚ) : Row :=
  ⟨cellsInsert s c r.cells, r.const⟩

/-- Add another row, scaled by a coefficient, into a row. -/
def Row.insertRow (r : Row) (o : Row) (c : ℚ) : Row :=
  o.cells.foldl (fun acc p => acc.insertSymbol p.1 (qMul p.2 c))
    ⟨r.cells, qAdd r.const (qMul o.const c)⟩

/-- Negate an entire row. -/
def Row.reverseSign (r : Row) : Row :=
  ⟨r.cells.map (fun p => (p.1, -p.2)), -r.const⟩

/-- Coefficient of a symbol in a row (0 when absent). -/
def Row.coeff (r : Row) (s : TabSymbol) : ℚ :=
  (alookup s r.cells).getD 0

/-- Solve the row equation `0 = const + cells` for the given symbol:
remove it and scale the rest by `-1/coefficient`. -/
def Row.solveFor (r : Row) (s : TabSymbol) : Row :=
  let c := qDiv (-1) (r.coeff s)
  ⟨(alErase s r.cells).map (fun p => (p.1, qMul p.2 c)), qMul r.const c⟩

/-- Solve the equation `lhs = row` for `rhs` (a pivot helper). -/
def Row.solveForSymbols (r : Row) (lhs rhs : TabSymbol) : Row :=
  (r.insertSymbol lhs (-1)).solveFor rhs

/-- Replace every occurrence of a symbol in the row by the given
substitution row. -/
def Row.substitute (r : Row) (s : TabSymbol) (sub : Row) : Row :=
  match alookup s r.cells with
  | none => r
  | some c => Row.insertRow ⟨alErase s r.cells, r.const⟩ sub c

/-- Shift a row constant by a delta. -/
def Row.shiftConst (r : Row) (v : ℚ) : Row :=
  ⟨r.cells, qAdd r.const v⟩

/-! ### Expressions, strengths, constraints -/

/-- A linear expression: a constant plus variable/coefficient terms
(duplicate variables are collapsed when the solver builds a row). -/
structure LinExpr where
  terms : List (Var × ℚ)
  const : ℚ
deriving DecidableEq

/-- Relational operator of a constraint (`expression OP 0`). -/
inductive RelOp where
  | le
  | eq
  | ge
deriving DecidableEq

/-- Modelled from the spec: graded strength weights are clamped to
[0, 1000] before combination. -/
def clip1000 (w : ℚ) : ℚ := if w < 0 then 0 else if 1000 < w then 1000 else w

/-- Modelled from the spec: the combined strength magnitude
`w1*1_000_000 + w2*1_000 + w3` over clamped weights. -/
def strengthCreate (w1 w2 w3 : ℚ) : ℚ :=
  clip1000 w1 * 1000000 + clip1000 w2 * 1000 + clip1000 w3

/-- Modelled from the spec: the required strength level, the sentinel
treated as a hard constraint. -/
def REQUIRED : ℚ := 1001001000

/-- The strong strength level (combined magnitude of one strong unit). -/
def STRONG : ℚ := 1000000

/-- The medium strength level. -/
def MEDIUM : ℚ := 1000

/-- The weak strength level. -/
def WEAK : ℚ := 1

/-- A constraint: expression `OP` 0 at a strength.  `cid` models Rust
object identity: each constructed constraint carries a distinct id. -/
structure Constraint where
  cid : Nat
  expr : LinExpr
  op : RelOp
  strength : ℚ
deriving DecidableEq

/-- Tag of an added constraint: its marker symbol and optional second
(error) symbol, used to identify the constraint's rows. -/
structure Tag where
  marker : TabSymbol
  other : Option TabSymbol
deriving DecidableEq

/-- The error kinds of the solver API (spec section 7). -/
inductive SolverError where
  | duplicateConstraint
  | unsatisfiableConstraint
  | unknownConstraint
  | duplicateEditVariable
  | unknownEditVariable
  | badRequiredStrength
  | internalSolverError
deriving DecidableEq

/-- Edit-variable bookkeeping: the tag of the internal stay constraint
and the current suggested value. -/
structure EditData where
  tag : Tag
  suggested : ℚ
deriving DecidableEq

/-- Modelled from the spec: the solver state.  It owns the constraint
set (by identity), the tableau rows, the variable-to-symbol map, the
edit-variable set, the objective row, the optional artificial objective,
the queue of infeasible rows for dual re-optimization, a fresh-symbol
counter, and the change-tracking snapshot of last-read values. -/
structure Solver where
  cns : List (Nat × Tag)
  rows : List (TabSymbol × Row)
  vars : List (Var × TabSymbol)
  edits : List (Var × EditData)
  objective : Row
  artRow : Option Row
  infeasibleRows : List TabSymbol
  nextSid : Nat
  snapshot : List (Var × ℚ)
deriving DecidableEq

/-- A fresh, empty solver. -/
def Solver.new : Solver :=
  ⟨[], [], [], [], ⟨[], 0⟩, none, [], 0, []⟩

/-- Fuel bound for the iterative optimization loops; exceeding it is
reported as an internal solver error. -/
def defaultFuel : Nat := 200

/-- Get or create the external symbol of a variable. -/
def Solver.getVarSymbol (s : Solver) (v : Var) : TabSymbol × Solver :=
  match alookup v s.vars with
  | some sym => (sym, s)
  | none =>
    let sym : TabSymbol := ⟨SymbolKind.external, s.nextSid⟩
    (sym, { s with vars := (v, sym) :: s.vars, nextSid := s.nextSid + 1 })

/-- Reverse the row's sign when its constant is negative. -/
def normalizeRowSign (r : Row) : Row :=
  if r.const < 0 then r.reverseSign else r

/-- One term of a constraint expression folded into a fresh row:
variables already basic are substituted by their rows. -/
def createRowStep (acc : Row × Solver) (t : Var × ℚ) : Row × Solver :=
  if nearZero t.2 then acc
  else
    let vs := acc.2.getVarSymbol t.1
    match alookup vs.1 vs.2.rows with
    | some r => (acc.1.insertRow r t.2, vs.2)
    | none => (acc.1.insertSymbol vs.1 t.2, vs.2)

/-- Modelled from the spec (4.3 step 2): normalize a constraint into a
tableau row.  Variables already basic are substituted by their rows; an
inequality gets a nonnegative slack variable; a non-required constraint
gets error variables whose weighted sum enters the objective at the
constraint's strength; a required equality gets a dummy marker. -/
def Solver.createRow (s : Solver) (c : Constraint) : Row × Tag × Solver :=
  let base := c.expr.terms.foldl createRowStep (⟨[], c.expr.const⟩, s)
  let row := base.1
  let s1 := base.2
  match c.op with
  | RelOp.le | RelOp.ge =>
    let cf : ℚ := if c.op = RelOp.le then 1 else -1
    let slack : TabSymbol := ⟨SymbolKind.slack, s1.nextSid⟩
    let s2 := { s1 with nextSid := s1.nextSid + 1 }
    let row2 := row.insertSymbol slack cf
    if c.strength < REQUIRED then
      let errSym : TabSymbol := ⟨SymbolKind.error, s2.nextSid⟩
      let s3 := { s2 with
        nextSid := s2.nextSid + 1
        objective := s2.objective.insertSymbol errSym c.strength }
      (normalizeRowSign (row2.insertSymbol errSym (-cf)), ⟨slack, some errSym⟩, s3)
    else
      (normalizeRowSign row2, ⟨slack, none⟩, s2)
  | RelOp.eq =>
    if c.strength < REQUIRED then
      let ep : TabSymbol := ⟨SymbolKind.error, s1.nextSid⟩
      let em : TabSymbol := ⟨SymbolKind.error, s1.nextSid + 1⟩
      let s2 := { s1 with
        nextSid := s1.nextSid + 2
        objective :=
          (s1.objective.insertSymbol ep c.strength).insertSymbol em c.strength }
      (normalizeRowSign ((row.insertSymbol ep (-1)).insertSymbol em 1),
        ⟨ep, some em⟩, s2)
    else
      let dy : TabSymbol := ⟨SymbolKind.dummy, s1.nextSid⟩
      let s2 := { s1 with nextSid := s1.nextSid + 1 }
      (normalizeRowSign (row.insertSymbol dy 1), ⟨dy, none⟩, s2)

/-- A symbol kind usable as a pivot subject (slack or error). -/
def pivotableKind (k : SymbolKind) : Bool :=
  decide (k = SymbolKind.slack) || decide (k = SymbolKind.error)

/-- Modelled from the spec (4.3 step 3): choose the subject variable for
a new row: an external symbol of the row if any, else the marker or
second tag symbol when slack/error with a negative coefficient. -/
def chooseSubject (row : Row) (tag : Tag) : Option TabSymbol :=
  match row.cells.find? (fun p => decide (p.1.kind = SymbolKind.external)) with
  | some p => some p.1
  | none =>
    if pivotableKind tag.marker.kind && decide (row.coeff tag.marker < 0) then
      some tag.marker
    else
      match tag.other with
      | some o =>
        if pivotableKind o.kind && decide (row.coeff o < 0) then some o else none
      | none => none

/-- True when every cell of the row is a dummy symbol. -/
def allDummies (row : Row) : Bool :=
  row.cells.all (fun p => decide (p.1.kind = SymbolKind.dummy))

/-- Substitute a symbol by a row throughout the tableau, the objective
and the artificial objective, recording rows whose basic variable became
negative as infeasible. -/
def Solver.substituteAll (s : Solver) (sym : TabSymbol) (sub : Row) : Solver :=
  let rows2 := s.rows.map (fun p => (p.1, p.2.substitute sym sub))
  let newInfeas :=
    (rows2.filter (fun p =>
      !decide (p.1.kind = SymbolKind.external) && decide (p.2.const < 0))).map (fun p => p.1)
  { s with
    rows := rows2
    infeasibleRows := s.infeasibleRows ++ newInfeas
    objective := s.objective.substitute sym sub
    artRow := s.artRow.map (fun r => r.substitute sym sub) }

/-- Entering symbol for primal optimization: the first non-dummy
objective cell with a negative coefficient. -/
def enteringSymbol (obj : Row) : Option TabSymbol :=
  (obj.cells.find? (fun p =>
    !decide (p.1.kind = SymbolKind.dummy) && decide (p.2 < 0))).map (fun p => p.1)

/-- Leaving row for primal optimization: among non-external basic rows
with a negative coefficient for the entering symbol, the first one
attaining the minimum ratio `-const/coeff`. -/
def Solver.leavingRow (s : Solver) (entering : TabSymbol) : Option TabSymbol :=
  (s.rows.foldl
    (fun (acc : Option (TabSymbol × ℚ)) p =>
      if decide (p.1.kind = SymbolKind.external) then acc
      else
        let c := p.2.coeff entering
        if decide (c < 0) then
          let rat := qDiv (-p.2.const) c
          match acc with
          | none => some (p.1, rat)
          | some b => if decide (rat < b.2) then some (p.1, rat) else acc
        else acc)
    none).map (fun p => p.1)

/-- The objective row currently being minimized (the artificial row
during the artificial-variable procedure). -/
def Solver.currentObjective (s : Solver) (useArt : Bool) : Row :=
  if useArt then s.artRow.getD s.objective else s.objective

/-- Exchange a basic and a nonbasic symbol (a pivot). -/
def Solver.pivot (s : Solver) (leaving entering : TabSymbol) (row : Row) : Solver :=
  let s2 := { s with rows := alErase leaving s.rows }
  let row2 := row.solveForSymbols leaving entering
  let s3 := s2.substituteAll entering row2
  { s3 with rows := (entering, row2) :: s3.rows }

/-- Modelled from the spec (4.3 step 4): primal simplex optimization of
the current objective, pivoting until no improving entering symbol
exists.  Fuel exhaustion or an unbounded objective is an internal
solver error. -/
def Solver.optimize (s : Solver) (useArt : Bool) : Nat → Except SolverError Solver
  | 0 => Except.error SolverError.internalSolverError
  | fuel + 1 =>
    match enteringSymbol (s.currentObjective useArt) with
    | none => Except.ok s
    | some entering =>
      match s.leavingRow entering with
      | none => Except.error SolverError.internalSolverError
      | some leaving =>
        match alookup leaving s.rows with
        | none => Except.error SolverError.internalSolverError
        | some row => (s.pivot leaving entering row).optimize useArt fuel

/-- Entering symbol for dual optimization: among non-dummy cells with a
positive coefficient, the first one attaining the minimum ratio of
objective coefficient to row coefficient. -/
def dualEnteringSymbol (obj row : Row) : Option TabSymbol :=
  (row.cells.foldl
    (fun (acc : Option (TabSymbol × ℚ)) p =>
      if !decide (p.1.kind = SymbolKind.dummy) && decide ((0:ℚ) < p.2) then
        let rat := qDiv (obj.coeff p.1) p.2
        match acc with
        | none => some (p.1, rat)
        | some b => if decide (rat < b.2) then some (p.1, rat) else acc
      else acc)
    none).map (fun p => p.1)

/-- Modelled from the spec (4.4): dual re-optimization restricted to the
rows whose basic variable became negative; restores primal feasibility
after an edit suggestion. -/
def Solver.dualOptimize (s : Solver) : Nat → Except SolverError Solver
  | 0 => Except.error SolverError.internalSolverError
  | fuel + 1 =>
    match s.infeasibleRows with
    | [] => Except.ok s
    | leaving :: rest =>
      let s1 := { s with infeasibleRows := rest }
      match alookup leaving s1.rows with
      | none => s1.dualOptimize fuel
      | some row =>
        if row.const < 0 then
          match dualEnteringSymbol s1.objective row with
          | none => Except.error SolverError.internalSolverError
          | some entering => (s1.pivot leaving entering row).dualOptimize fuel
        else
          s1.dualOptimize fuel

/-- First slack or error symbol of a row, if any. -/
def anyPivotable (r : Row) : Option TabSymbol :=
  (r.cells.find? (fun p => pivotableKind p.1.kind)).map (fun p => p.1)

/-- Remove a symbol's column from every row of the tableau. -/
def rowsDropSymbol (sym : TabSymbol) (rows : List (TabSymbol × Row)) :
    List (TabSymbol × Row) :=
  rows.map (fun p => (p.1, ⟨alErase sym p.2.cells, p.2.const⟩))

/-- Modelled from the spec (4.3 step 3): the artificial-variable
technique for a required row with no usable subject: minimize the row
itself; the constraint is satisfiable exactly when the minimum is
(near) zero.  Returns the success flag with the updated solver. -/
def Solver.addWithArtificialVariable (s : Solver) (row : Row) (fuel : Nat) :
    Except SolverError (Bool × Solver) :=
  let art : TabSymbol := ⟨SymbolKind.slack, s.nextSid⟩
  let s1 := { s with
    nextSid := s.nextSid + 1
    rows := (art, row) :: s.rows
    artRow := some row }
  match s1.optimize true fuel with
  | Except.error e => Except.error e
  | Except.ok s2 =>
    let success := nearZero ((s2.artRow.getD ⟨[], 0⟩).const)
    let s3 := { s2 with artRow := none }
    match alookup art s3.rows with
    | some artBasic =>
      let s4 := { s3 with rows := alErase art s3.rows }
      if artBasic.cells.isEmpty then
        Except.ok (nearZero artBasic.const, s4)
      else
        match anyPivotable artBasic with
        | none => Except.ok (false, s4)
        | some entering =>
          let row2 := artBasic.solveForSymbols art entering
          let s5 := s4.substituteAll entering row2
          let s6 := { s5 with rows := (entering, row2) :: s5.rows }
          Except.ok (success, { s6 with
            rows := rowsDropSymbol art s6.rows
            objective := ⟨alErase art s6.objective.cells, s6.objective.const⟩ })
    | none =>
      Except.ok (success, { s3 with
        rows := rowsDropSymbol art s3.rows
        objective := ⟨alErase art s3.objective.cells, s3.objective.const⟩ })

/-- Finish a constraint insertion once a subject has been chosen: solve
the row for the subject, substitute it through the tableau, insert the
row and the constraint, and re-optimize. -/
def Solver.finishAdd (s : Solver) (c : Constraint) (tag : Tag) (row : Row)
    (subject : TabSymbol) (fuel : Nat) : Except SolverError Solver :=
  let row2 := row.solveFor subject
  let s2 := s.substituteAll subject row2
  let s3 := { s2 with
    rows := (subject, row2) :: s2.rows
    cns := (c.cid, tag) :: s2.cns }
  s3.optimize false fuel

/-- Modelled from the spec (4.3): constraint insertion.  Rejects
duplicates (by identity), normalizes into a row, chooses a subject or
falls back to the artificial-variable technique, and reports
`unsatisfiableConstraint` when the required subset becomes infeasible. -/
def Solver.addConstraintImpl (s : Solver) (c : Constraint) (fuel : Nat) :
    Except SolverError Solver :=
  if (alookup c.cid s.cns).isSome then
    Except.error SolverError.duplicateConstraint
  else
    let rts := s.createRow c
    let row := rts.1
    let tag := rts.2.1
    let s1 := rts.2.2
    match chooseSubject row tag with
    | some subject => s1.finishAdd c tag row subject fuel
    | none =>
      if allDummies row then
        if !nearZero row.const then
          Except.error SolverError.unsatisfiableConstraint
        else
          s1.finishAdd c tag row tag.marker fuel
      else
        match s1.addWithArtificialVariable row fuel with
        | Except.error e => Except.error e
        | Except.ok bs =>
          if !bs.1 then
            Except.error SolverError.unsatisfiableConstraint
          else
            let s3 := { bs.2 with cns := (c.cid, tag) :: bs.2.cns }
            s3.optimize false fuel

/-- Modelled from the spec (5): the transactional view of
`add_constraint`: a failing call leaves the pre-call state unchanged and
reports the error. -/
def Solver.addConstraintTx (s : Solver) (c : Constraint) : Solver × Option SolverError :=
  match s.addConstraintImpl c defaultFuel with
  | Except.ok s2 => (s2, none)
  | Except.error e => (s, some e)

/-- Sequential insertion of a batch of constraints, stopping at the
first failure. -/
def Solver.addConstraintsGo (s : Solver) : List Constraint → Except SolverError Solver
  | [] => Except.ok s
  | c :: rest =>
    match s.addConstraintImpl c defaultFuel with
    | Except.ok s2 => s2.addConstraintsGo rest
    | Except.error e => Except.error e

/-- Modelled from the spec (6): the batch `add_constraints`:
semantically sequential insertion, failing atomically (a failing batch
leaves the pre-call state unchanged). -/
def Solver.addConstraintsTx (s : Solver) (cs : List Constraint) :
    Solver × Option SolverError :=
  match s.addConstraintsGo cs with
  | Except.ok s2 => (s2, none)
  | Except.error e => (s, some e)

/-- Constraint identity used for the internal stay constraint of an edit
variable (disjoint from the caller-allocated identity range). -/
def editCid (v : Var) : Nat := 1000000000 + v

/-- Modelled from the spec (4.4): register an edit variable.  The
strength must be strictly below required, else `badRequiredStrength`; a
second registration for the same variable is `duplicateEditVariable`.
Internally adds the stay constraint `v = 0` at the given strength and
records its tag with the suggested value initialized to 0. -/
def Solver.addEditVariable (s : Solver) (v : Var) (strength : ℚ) :
    Except SolverError Solver :=
  if strength < REQUIRED then
    if (alookup v s.edits).isSome then
      Except.error SolverError.duplicateEditVariable
    else
      match s.addConstraintImpl ⟨editCid v, ⟨[(v, 1)], 0⟩, RelOp.eq, strength⟩ defaultFuel with
      | Except.error e => Except.error e
      | Except.ok s1 =>
        let tag := (alookup (editCid v) s1.cns).getD ⟨⟨SymbolKind.dummy, 0⟩, none⟩
        Except.ok { s1 with edits := (v, ⟨tag, 0⟩) :: s1.edits }
  else
    Except.error SolverError.badRequiredStrength

/-- Shift every row containing the marker symbol by `delta` times its
coefficient, flagging non-external basic rows that become negative. -/
def Solver.suggestShiftAll (s : Solver) (marker : TabSymbol) (delta : ℚ) : Solver :=
  let res := s.rows.foldl
    (fun (acc : List (TabSymbol × Row) × List TabSymbol) p =>
      let cf := p.2.coeff marker
      if cf = 0 then (acc.1 ++ [p], acc.2)
      else
        let r2 := p.2.shiftConst (qMul delta cf)
        let inf2 :=
          if decide (r2.const < 0) && !decide (p.1.kind = SymbolKind.external) then
            acc.2 ++ [p.1]
          else acc.2
        (acc.1 ++ [(p.1, r2)], inf2))
    ([], [])
  { s with rows := res.1, infeasibleRows := s.infeasibleRows ++ res.2 }

/-- Modelled from the spec (4.4): suggest a value for an edit variable:
update the stay constraint's target, adjust the affected rows directly
by the delta, then restore primal feasibility by dual re-optimization of
only the rows whose basic variable became negative. -/
def Solver.suggestValue (s : Solver) (v : Var) (value : ℚ) (fuel : Nat) :
    Except SolverError Solver :=
  match alookup v s.edits with
  | none => Except.error SolverError.unknownEditVariable
  | some ed =>
    let delta := qSub value ed.suggested
    let s1 := { s with edits := alUpdate v ⟨ed.tag, value⟩ s.edits }
    let s2 :=
      match alookup ed.tag.marker s1.rows with
      | some r =>
        let r2 := r.shiftConst (-delta)
        { s1 with
          rows := alUpdate ed.tag.marker r2 s1.rows
          infeasibleRows :=
            if r2.const < 0 then s1.infeasibleRows ++ [ed.tag.marker]
            else s1.infeasibleRows }
      | none =>
        match ed.tag.other with
        | some o =>
          match alookup o s1.rows with
          | some r =>
            let r2 := r.shiftConst delta
            { s1 with
              rows := alUpdate o r2 s1.rows
              infeasibleRows :=
                if r2.const < 0 then s1.infeasibleRows ++ [o]
                else s1.infeasibleRows }
          | none => s1.suggestShiftAll ed.tag.marker delta
        | none => s1.suggestShiftAll ed.tag.marker delta
    s2.dualOptimize fuel

/-- Current tableau-derived value of a symbol: its basic row's constant,
or 0 when nonbasic. -/
def Solver.symbolValue (s : Solver) (sym : TabSymbol) : ℚ :=
  match alookup sym s.rows with
  | some r => r.const
  | none => 0

/-- Modelled from the spec (4.5): the resolved value of a variable. -/
def Solver.resolvedValue (s : Solver) (v : Var) : ℚ :=
  match alookup v s.vars with
  | some sym => s.symbolValue sym
  | none => 0

/-- The change entry of one tracked variable: its current value when it
differs from the snapshot by more than the tolerance. -/
def fetchOne (s : Solver) (p : Var × TabSymbol) : Option (Var × ℚ) :=
  let cur := s.symbolValue p.2
  let old := (alookup p.1 s.snapshot).getD 0
  if solverTol < qAbs (qSub cur old) then some (p.1, cur) else none

/-- Modelled from the spec (4.5): change extraction.  Compares the
current resolved value of every known variable against the last
snapshot, returns the pairs that differ by more than the fixed
tolerance, and updates the snapshot to match. -/
def Solver.fetchChanges (s : Solver) : List (Var × ℚ) × Solver :=
  let changes := s.vars.filterMap (fetchOne s)
  (changes, { s with snapshot := extendAL s.snapshot changes })

/-- Decidable equality for `Except` results. -/
instance {e a : Type} [DecidableEq e] [DecidableEq a] : DecidableEq (Except e a) := fun
  | Except.ok x, Except.ok y =>
    if h : x = y then isTrue (by rw [h]) else isFalse (by intro hh; cases hh; exact h rfl)
  | Except.ok x, Except.error f => isFalse (by intro hh; cases hh)
  | Except.error f, Except.ok y => isFalse (by intro hh; cases hh)
  | Except.error f, Except.error g =>
    if h : f = g then isTrue (by rw [h]) else isFalse (by intro hh; cases hh; exact h rfl)

/-! ### Layout layer (translated from src/main.rs) -/

/-- A rectangle of resolved values (Rect in src/main.rs). -/
structure RectQ where
  x : ℚ
  y : ℚ
  width : ℚ
  height : ℚ
deriving DecidableEq

/-- An element: four solver variables x, y, width, height
(Element in src/main.rs). -/
structure Element where
  x : Var
  y : Var
  width : Var
  height : Var
deriving DecidableEq

/-- Element::new allocates four fresh variables; the model takes the
base of the fresh block explicitly. -/
def Element.new (base : Nat) : Element :=
  ⟨base, base + 1, base + 2, base + 3⟩

/-- Expression of a single variable. -/
def LinExpr.ofVar (v : Var) : LinExpr := ⟨[(v, 1)], 0⟩

/-- Constant expression. -/
def LinExpr.ofConst (k : ℚ) : LinExpr := ⟨[], k⟩

/-- Difference of expressions (term lists concatenate; the solver sums
duplicate variables when building the row). -/
def LinExpr.sub (a b : LinExpr) : LinExpr :=
  ⟨a.terms ++ b.terms.map (fun t => (t.1, -t.2)), qSub a.const b.const⟩

/-- Expression divided by a scalar (Expression / f64 in the source). -/
def LinExpr.divBy (a : LinExpr) (k : ℚ) : LinExpr :=
  ⟨a.terms.map (fun t => (t.1, qDiv t.2 k)), qDiv a.const k⟩

/-- The weighted-relation constraint builder `lhs | OP(strength) | rhs`:
the constraint `lhs - rhs OP 0`. -/
def relate (cid : Nat) (lhs : LinExpr) (op : RelOp) (strength : ℚ) (rhs : LinExpr) :
    Constraint :=
  ⟨cid, lhs.sub rhs, op, strength⟩

/-- Element::left (the x variable). -/
def Element.left (e : Element) : LinExpr := LinExpr.ofVar e.x

/-- Element::right (x + width). -/
def Element.right (e : Element) : LinExpr := ⟨[(e.x, 1), (e.width, 1)], 0⟩

/-- Element::top (the y variable). -/
def Element.top (e : Element) : LinExpr := LinExpr.ofVar e.y

/-- Element::bottom (y + height). -/
def Element.bottom (e : Element) : LinExpr := ⟨[(e.y, 1), (e.height, 1)], 0⟩

/-- Element::precedes_horizontally: `self.right = other.left` at REQUIRED. -/
def Element.precedesHorizontally (e other : Element) (cid : Nat) : Constraint :=
  relate cid e.right RelOp.eq REQUIRED other.left

/-- Element::precedes_vertically: `self.bottom = other.top` at REQUIRED. -/
def Element.precedesVertically (e other : Element) (cid : Nat) : Constraint :=
  relate cid e.bottom RelOp.eq REQUIRED other.top

/-- Element::has_width: `self.width = width` at STRONG. -/
def Element.hasWidth (e : Element) (width : ℚ) (cid : Nat) : Constraint :=
  relate cid (LinExpr.ofVar e.width) RelOp.eq STRONG (LinExpr.ofConst width)

/-- Element::has_proportional_width: `self.width / r = other.width` at MEDIUM. -/
def Element.hasProportionalWidth (e other : Element) (r : ℚ) (cid : Nat) : Constraint :=
  relate cid ((LinExpr.ofVar e.width).divBy r) RelOp.eq MEDIUM (LinExpr.ofVar other.width)

/-- The layout: solver, the area element, the added elements, and the
accumulated fetched values (Layout in src/main.rs). `nextCid` models the
allocation of constraint object identities for internal constraints. -/
structure Layout where
  solver : Solver
  areaElement : Element
  elements : List Element
  values : List (Var × ℚ)
  nextCid : Nat
deriving DecidableEq

/-- Edit variables cannot be added at REQUIRED, so Layout::new uses
REQUIRED - 1.0. -/
def editVariableStrength : ℚ := qSub REQUIRED 1

/-- Layout::add_constraints: forwards the batch to the solver. -/
def Layout.addConstraints (l : Layout) (cs : List Constraint) :
    Except SolverError Layout :=
  match l.solver.addConstraintsTx cs with
  | (s2, none) => Except.ok { l with solver := s2 }
  | (_, some e) => Except.error e

/-- Layout::add_constraint: forwards one constraint to the solver. -/
def Layout.addConstraint (l : Layout) (c : Constraint) : Except SolverError Layout :=
  match l.solver.addConstraintTx c with
  | (s2, none) => Except.ok { l with solver := s2 }
  | (_, some e) => Except.error e

/-- Layout::new: register the four area variables as edit variables at
REQUIRED - 1, suggest the area's geometry, and require all four area
variables to be nonnegative. -/
def Layout.new (area : RectQ) : Except SolverError Layout := do
  let ae := Element.new 0
  let s1 ← Solver.new.addEditVariable ae.x editVariableStrength
  let s2 ← s1.addEditVariable ae.y editVariableStrength
  let s3 ← s2.addEditVariable ae.width editVariableStrength
  let s4 ← s3.addEditVariable ae.height editVariableStrength
  let s5 ← s4.suggestValue ae.x area.x defaultFuel
  let s6 ← s5.suggestValue ae.y area.y defaultFuel
  let s7 ← s6.suggestValue ae.width area.width defaultFuel
  let s8 ← s7.suggestValue ae.height area.height defaultFuel
  let l : Layout := ⟨s8, ae, [], [], 10004⟩
  l.addConstraints
    [ relate 10000 (LinExpr.ofVar ae.x) RelOp.ge REQUIRED (LinExpr.ofConst 0),
      relate 10001 (LinExpr.ofVar ae.y) RelOp.ge REQUIRED (LinExpr.ofConst 0),
      relate 10002 (LinExpr.ofVar ae.width) RelOp.ge REQUIRED (LinExpr.ofConst 0),
      relate 10003 (LinExpr.ofVar ae.height) RelOp.ge REQUIRED (LinExpr.ofConst 0) ]

/-- The four required containment constraints submitted by
Layout::add_element for an element (note: the element's right edge is
bounded by the area's bottom edge, exactly as in the source). -/
def addElementConstraints (area e : Element) (base : Nat) : List Constraint :=
  [ relate base e.left RelOp.ge REQUIRED area.left,
    relate (base + 1) e.top RelOp.ge REQUIRED area.top,
    relate (base + 2) e.right RelOp.le REQUIRED area.bottom,
    relate (base + 3) e.bottom RelOp.le REQUIRED area.bottom ]

/-- Layout::add_element: store the element and add its containment
constraints. -/
def Layout.addElement (l : Layout) (e : Element) : Except SolverError Layout :=
  let l1 := { l with elements := l.elements ++ [e], nextCid := l.nextCid + 4 }
  l1.addConstraints (addElementConstraints l.areaElement e l.nextCid)

/-- Layout::value: the accumulated fetched value of a variable,
defaulting to 0.0. -/
def Layout.value (l : Layout) (v : Var) : ℚ :=
  (alookup v l.values).getD 0

/-- Layout::get_rects: fetch changes from the solver, merge them into
the accumulated values, and read one rect per element. -/
def Layout.getRects (l : Layout) : List RectQ × Layout :=
  let fc := l.solver.fetchChanges
  let l2 := { l with solver := fc.2, values := extendAL l.values fc.1 }
  (l2.elements.map (fun e => ⟨l2.value e.x, l2.value e.y, l2.value e.width, l2.value e.height⟩),
    l2)

/-! ### The demo of main (src/main.rs) -/

/-- The demo area: x 0, y 0, width 50, height 50. -/
def mainArea : RectQ := ⟨0, 0, 50, 50⟩

/-- The end-to-end demo of main: three elements laid end to end, strong
fixed widths 60/30/10, medium proportional ties 60/30 and 30/10, in an
area of width 50. -/
def demoRun : Except SolverError (List RectQ × Layout) := do
  let e1 := Element.new 4
  let e2 := Element.new 8
  let e3 := Element.new 12
  let l0 ← Layout.new mainArea
  let l1 ← l0.addElement e1
  let l2 ← l1.addElement e2
  let l3 ← l2.addElement e3
  let l4 ← l3.addConstraint (e1.hasWidth 60 1)
  let l5 ← l4.addConstraint (e2.hasWidth 30 2)
  let l6 ← l5.addConstraint (e3.hasWidth 10 3)
  let l7 ← l6.addConstraint (e1.precedesHorizontally e2 4)
  let l8 ← l7.addConstraint (e2.precedesHorizontally e3 5)
  let l9 ← l8.addConstraint (e1.hasProportionalWidth e2 (qDiv 60 30) 6)
  let l10 ← l9.addConstraint (e2.hasProportionalWidth e3 (qDiv 30 10) 7)
  Except.ok l10.getRects

/-- The widths of the three demo rects. -/
def demoWidths : Except SolverError (List ℚ) :=
  demoRun.map (fun p => p.1.map RectQ.width)

/-- The x positions of the three demo rects. -/
def demoXs : Except SolverError (List ℚ) :=
  demoRun.map (fun p => p.1.map RectQ.x)

/-- C2: running the end-to-end demo of main (three elements laid end to
end in a 50-wide area, strong fixed widths 60/30/10, medium proportional
ties 2:1 and 3:1, container width suggested to 50) yields resolved
widths 30, 15, 5 and x positions 0, 30, 45 from get_rects. -/
theorem c2_demo_widths_and_positions :
    demoWidths = Except.ok [30, 15, 5] ∧ demoXs = Except.ok [0, 30, 45] := by
  constructor
  · decide
  · decide

/-! ### Rollback and batch semantics -/

/-- A degenerate required constraint `5 = 0`, trivially unsatisfiable. -/
def degenerateCns : Constraint := ⟨0, ⟨[], 5⟩, RelOp.eq, REQUIRED⟩

/-- C4: an add_constraint call that fails leaves every previously solved
variable value and every previously added constraint intact: the
post-call solver state equals the pre-call state. -/
theorem c4_rollback_on_failure (s : Solver) (c : Constraint) (e : SolverError)
    (h : (s.addConstraintTx c).2 = some e) :
    (s.addConstraintTx c).1 = s ∧
    (∀ v, (s.addConstraintTx c).1.resolvedValue v = s.resolvedValue v) ∧
    (s.addConstraintTx c).1.cns = s.cns := by
  cases hcase : s.addConstraintImpl c defaultFuel with
  | ok s2 =>
    exfalso
    unfold Solver.addConstraintTx at h
    rw [hcase] at h
    simp at h
  | error e2 =>
    unfold Solver.addConstraintTx
    rw [hcase]
    exact ⟨rfl, fun v => rfl, rfl⟩

/-- Witness for C4: adding the degenerate required constraint `5 = 0`
to a fresh solver fails with unsatisfiableConstraint and leaves the
solver unchanged. -/
theorem c4_rollback_on_failure_witness :
    (Solver.new.addConstraintTx degenerateCns).2 = some SolverError.unsatisfiableConstraint ∧
    ((Solver.new.addConstraintTx degenerateCns).1 = Solver.new ∧
     (∀ v, (Solver.new.addConstraintTx degenerateCns).1.resolvedValue v =
        Solver.new.resolvedValue v) ∧
     (Solver.new.addConstraintTx degenerateCns).1.cns = Solver.new.cns) :=
  ⟨by decide,
   c4_rollback_on_failure Solver.new degenerateCns SolverError.unsatisfiableConstraint
     (by decide)⟩

theorem Solver.substituteAll_cns (s : Solver) (sym : TabSymbol) (sub : Row) :
    (s.substituteAll sym sub).cns = s.cns := rfl

theorem Solver.pivot_cns (s : Solver) (l e : TabSymbol) (r : Row) :
    (s.pivot l e r).cns = s.cns := rfl

theorem Solver.optimize_ok_cns (useArt : Bool) (fuel : Nat) :
    ∀ (s s2 : Solver), s.optimize useArt fuel = Except.ok s2 → s2.cns = s.cns := by
  induction fuel with
  | zero =>
    intro s s2 h
    simp [Solver.optimize] at h
  | succ f ih =>
    intro s s2 h
    unfold Solver.optimize at h
    split at h
    · cases h
      rfl
    · split at h
      · simp at h
      · split at h
        · simp at h
        · rw [ih _ _ h, Solver.pivot_cns]

theorem Solver.getVarSymbol_cns (s : Solver) (v : Var) :
    (s.getVarSymbol v).2.cns = s.cns := by
  unfold Solver.getVarSymbol
  split <;> rfl

theorem createRowStep_cns (acc : Row × Solver) (t : Var × ℚ) :
    (createRowStep acc t).2.cns = acc.2.cns := by
  simp only [createRowStep]
  split
  · rfl
  · split <;> simp [Solver.getVarSymbol_cns]

theorem foldl_createRowStep_cns (ts : List (Var × ℚ)) :
    ∀ acc : Row × Solver, (ts.foldl createRowStep acc).2.cns = acc.2.cns := by
  induction ts with
  | nil => intro acc; rfl
  | cons t rest ih =>
    intro acc
    rw [List.foldl_cons, ih (createRowStep acc t), createRowStep_cns]

theorem Solver.createRow_cns (s : Solver) (c : Constraint) :
    (s.createRow c).2.2.cns = s.cns := by
  unfold Solver.createRow
  repeat' split
  all_goals simp [foldl_createRowStep_cns]

theorem Solver.artificial_ok_cns (s : Solver) (row : Row) (fuel : Nat) (bs : Bool × Solver)
    (h : s.addWithArtificialVariable row fuel = Except.ok bs) : bs.2.cns = s.cns := by
  simp only [Solver.addWithArtificialVariable] at h
  split at h
  · simp at h
  · next s2 heq =>
    have hcns := Solver.optimize_ok_cns true fuel _ s2 heq
    split at h
    · split at h
      · cases h
        exact hcns
      · split at h
        · cases h
          exact hcns
        · cases h
          exact hcns
    · cases h
      exact hcns

theorem Solver.finishAdd_ok_cns (s : Solver) (c : Constraint) (tag : Tag) (row : Row)
    (subject : TabSymbol) (fuel : Nat) (s2 : Solver)
    (h : s.finishAdd c tag row subject fuel = Except.ok s2) :
    s2.cns = (c.cid, tag) :: s.cns := by
  simp only [Solver.finishAdd] at h
  exact Solver.optimize_ok_cns false fuel _ _ h

theorem Solver.addConstraintImpl_ok_cns (s : Solver) (c : Constraint) (fuel : Nat) (s2 : Solver)
    (h : s.addConstraintImpl c fuel = Except.ok s2) :
    ∃ t, s2.cns = (c.cid, t) :: s.cns := by
  simp only [Solver.addConstraintImpl] at h
  split at h
  · simp at h
  · split at h
    · refine ⟨(s.createRow c).2.1, ?_⟩
      rw [Solver.finishAdd_ok_cns _ _ _ _ _ _ _ h, Solver.createRow_cns]
    · split at h
      · split at h
        · simp at h
        · refine ⟨(s.createRow c).2.1, ?_⟩
          rw [Solver.finishAdd_ok_cns _ _ _ _ _ _ _ h, Solver.createRow_cns]
      · split at h
        · simp at h
        · next bs hart =>
          split at h
          · simp at h
          · refine ⟨(s.createRow c).2.1, ?_⟩
            have h2 := Solver.optimize_ok_cns false fuel _ _ h
            rw [h2]
            show (c.cid, (s.createRow c).2.1) :: bs.2.cns =
              (c.cid, (s.createRow c).2.1) :: s.cns
            rw [Solver.artificial_ok_cns _ _ _ _ hart, Solver.createRow_cns]

/-- The result of calling add_constraint sequentially on each element
of a list (keeping the last state on failure of a call). -/
def Solver.seqAdd (s : Solver) (cs : List Constraint) : Solver :=
  cs.foldl (fun st c => (st.addConstraintTx c).1) s

theorem alookup_isSome_cons {α β : Type} [DecidableEq α] (k : α) (p : α × β)
    (l : List (α × β)) (h : (alookup k l).isSome = true) :
    (alookup k (p :: l)).isSome = true := by
  simp only [alookup]
  split
  · simp
  · exact h

theorem Solver.addConstraintsGo_preserves (cs : List Constraint) :
    ∀ (s s2 : Solver), s.addConstraintsGo cs = Except.ok s2 →
      ∀ k, (alookup k s.cns).isSome = true → (alookup k s2.cns).isSome = true := by
  induction cs with
  | nil =>
    intro s s2 h k hk
    simp only [Solver.addConstraintsGo] at h
    cases h
    exact hk
  | cons c rest ih =>
    intro s s2 h k hk
    simp only [Solver.addConstraintsGo] at h
    split at h
    · next s1 himpl =>
      obtain ⟨t, hcns⟩ := Solver.addConstraintImpl_ok_cns s c defaultFuel s1 himpl
      refine ih s1 s2 h k ?_
      rw [hcns]
      exact alookup_isSome_cons k _ _ hk
    · simp at h

theorem Solver.addConstraintsGo_ok (cs : List Constraint) :
    ∀ (s s2 : Solver), s.addConstraintsGo cs = Except.ok s2 →
      s2 = s.seqAdd cs ∧ ∀ c ∈ cs, (alookup c.cid s2.cns).isSome = true := by
  induction cs with
  | nil =>
    intro s s2 h
    simp only [Solver.addConstraintsGo] at h
    cases h
    exact ⟨rfl, by simp⟩
  | cons c rest ih =>
    intro s s2 h
    simp only [Solver.addConstraintsGo] at h
    split at h
    · next s1 himpl =>
      obtain ⟨hseq, hmem⟩ := ih s1 s2 h
      have htx : (s.addConstraintTx c).1 = s1 := by
        unfold Solver.addConstraintTx
        rw [himpl]
      constructor
      · rw [hseq]
        show s1.seqAdd rest = List.foldl _ s (c :: rest)
        rw [List.foldl_cons, htx]
        rfl
      · intro c2 hc2
        rcases List.mem_cons.mp hc2 with hh | hh
        · subst hh
          obtain ⟨t, hcns⟩ := Solver.addConstraintImpl_ok_cns s c2 defaultFuel s1 himpl
          refine Solver.addConstraintsGo_preserves rest s1 s2 h c2.cid ?_
          rw [hcns]
          simp [alookup]
        · exact hmem c2 hh
    · simp at h

/-- C5: add_constraints behaves like calling add_constraint on each
element in sequence, and fails atomically: either every constraint in
the list was added (and the result equals the sequential result), or
the solver state is unchanged. -/
theorem c5_add_constraints_batch (s : Solver) (cs : List Constraint) :
    ((s.addConstraintsTx cs).2 = none ∧ (s.addConstraintsTx cs).1 = s.seqAdd cs ∧
      ∀ c ∈ cs, (alookup c.cid (s.addConstraintsTx cs).1.cns).isSome = true) ∨
    ((s.addConstraintsTx cs).2.isSome = true ∧ (s.addConstraintsTx cs).1 = s) := by
  cases hgo : s.addConstraintsGo cs with
  | ok s2 =>
    left
    obtain ⟨h1, h2⟩ := Solver.addConstraintsGo_ok cs s s2 hgo
    unfold Solver.addConstraintsTx
    rw [hgo]
    exact ⟨rfl, h1, h2⟩
  | error e =>
    right
    unfold Solver.addConstraintsTx
    rw [hgo]
    exact ⟨rfl, rfl⟩

theorem Solver.optimize_error_internal (useArt : Bool) (fuel : Nat) :
    ∀ (s : Solver) (e : SolverError), s.optimize useArt fuel = Except.error e →
      e = SolverError.internalSolverError := by
  induction fuel with
  | zero =>
    intro s e h
    simp only [Solver.optimize] at h
    cases h
    rfl
  | succ f ih =>
    intro s e h
    unfold Solver.optimize at h
    split at h
    · simp at h
    · split at h
      · cases h
        rfl
      · split at h
        · cases h
          rfl
        · exact ih _ _ h

theorem Solver.artificial_error_internal (s : Solver) (row : Row) (fuel : Nat)
    (e : SolverError) (h : s.addWithArtificialVariable row fuel = Except.error e) :
    e = SolverError.internalSolverError := by
  simp only [Solver.addWithArtificialVariable] at h
  split at h
  · next e2 heq =>
    cases h
    exact Solver.optimize_error_internal true fuel _ _ heq
  · split at h
    · split at h
      · simp at h
      · split at h <;> simp at h
    · simp at h

theorem Solver.finishAdd_error_internal (s : Solver) (c : Constraint) (tag : Tag)
    (row : Row) (subject : TabSymbol) (fuel : Nat) (e : SolverError)
    (h : s.finishAdd c tag row subject fuel = Except.error e) :
    e = SolverError.internalSolverError := by
  simp only [Solver.finishAdd] at h
  exact Solver.optimize_error_internal false fuel _ e h

theorem Solver.addConstraintImpl_error_kinds (s : Solver) (c : Constraint) (fuel : Nat)
    (e : SolverError) (h : s.addConstraintImpl c fuel = Except.error e) :
    e = SolverError.duplicateConstraint ∨ e = SolverError.unsatisfiableConstraint ∨
      e = SolverError.internalSolverError := by
  simp only [Solver.addConstraintImpl] at h
  split at h
  · cases h
    exact Or.inl rfl
  · split at h
    · exact Or.inr (Or.inr (Solver.finishAdd_error_internal _ _ _ _ _ _ _ h))
    · split at h
      · split at h
        · cases h
          exact Or.inr (Or.inl rfl)
        · exact Or.inr (Or.inr (Solver.finishAdd_error_internal _ _ _ _ _ _ _ h))
      · split at h
        · next e2 hart =>
          cases h
          exact Or.inr (Or.inr (Solver.artificial_error_internal _ _ _ _ hart))
        · split at h
          · cases h
            exact Or.inr (Or.inl rfl)
          · exact Or.inr (Or.inr (Solver.optimize_error_internal false fuel _ e h))

/-- C7: add_edit_variable fails with BadRequiredStrength exactly when the
strength is not strictly below the required level; in particular the
four registrations at strength REQUIRED - 1.0 in Layout::new succeed
(Layout::new returns a layout). -/
theorem c7_bad_required_strength :
    (∀ (s : Solver) (v : Var) (strength : ℚ),
      (s.addEditVariable v strength = Except.error SolverError.badRequiredStrength) ↔
        ¬ (strength < REQUIRED)) ∧
    (Layout.new mainArea).toOption.isSome = true := by
  constructor
  · intro s v strength
    constructor
    · intro heq hlt
      unfold Solver.addEditVariable at heq
      rw [if_pos hlt] at heq
      split at heq
      · simp at heq
      · split at heq
        · next e2 himpl =>
          cases heq
          rcases Solver.addConstraintImpl_error_kinds _ _ _ _ himpl with h | h | h <;>
            simp at h
        · simp at heq
    · intro hnot
      unfold Solver.addEditVariable
      rw [if_neg hnot]
  · decide

/-! ### Strength arithmetic (C8) -/

theorem clip1000_eq_clamp (w : ℚ) : clip1000 w = max 0 (min w 1000) := by
  unfold clip1000
  split
  · next hw =>
    rw [max_eq_left (le_of_lt (lt_of_le_of_lt (min_le_left w 1000) hw))]
  · split
    · next h1 h2 =>
      rw [min_eq_right (le_of_lt h2), max_eq_right]
      norm_num
    · next h1 h2 =>
      rw [min_eq_left (not_lt.mp h2), max_eq_right (not_lt.mp h1)]

theorem clip1000_nonneg (w : ℚ) : 0 ≤ clip1000 w := by
  unfold clip1000
  split
  · exact le_refl 0
  · split
    · norm_num
    · next h1 h2 => exact not_lt.mp h1

theorem clip1000_le (w : ℚ) : clip1000 w ≤ 1000 := by
  unfold clip1000
  split
  · norm_num
  · split
    · exact le_refl 1000
    · next h1 h2 => exact not_lt.mp h2

theorem clip1000_zero : clip1000 0 = 0 := by
  unfold clip1000
  norm_num

/-- Counterexample to C8 as stated: the positive weight 1 at the higher
(strong-like) level does not strictly dominate the combination of
weights 1000 and 1000 at the two lower levels, since
1*1_000_000 = 1_000_000 < 1_001_000 = 1000*1_000 + 1000. -/
theorem c8_dominance_counterexample :
    (0 : ℚ) < 1 ∧ ¬ (strengthCreate 0 1000 1000 < strengthCreate 1 0 0) := by
  constructor
  · norm_num
  · simp only [strengthCreate, clip1000]
    norm_num

/-- C8 (amended): the combined strength magnitude is
clamp(w1)*1_000_000 + clamp(w2)*1_000 + clamp(w3) with clamping to
[0, 1000]; and a weight at a higher-named level strictly dominates any
combination of weights at lower levels provided it exceeds 1001/1000
(so that its clamped contribution exceeds the maximal combined
lower-level contribution 1_001_000). -/
theorem c8_strength_arithmetic :
    (∀ w1 w2 w3 : ℚ, strengthCreate w1 w2 w3 =
        max 0 (min w1 1000) * 1000000 + max 0 (min w2 1000) * 1000 + max 0 (min w3 1000)) ∧
    (∀ w1 w2 w3 : ℚ, mkRat 1001 1000 < w1 →
        strengthCreate 0 w2 w3 < strengthCreate w1 0 0) := by
  constructor
  · intro w1 w2 w3
    rw [strengthCreate, clip1000_eq_clamp, clip1000_eq_clamp, clip1000_eq_clamp]
  · intro w1 w2 w3 h
    have h2 : (1001 / 1000 : ℚ) < w1 := by
      rw [Rat.mkRat_eq_div] at h
      push_cast at h
      exact h
    have hc1 : (1001 / 1000 : ℚ) < clip1000 w1 := by
      unfold clip1000
      split
      · next hw => linarith
      · split
        · norm_num
        · exact h2
    have hb2 := clip1000_le w2
    have hb3 := clip1000_le w3
    have hn2 := clip1000_nonneg w2
    have hn3 := clip1000_nonneg w3
    simp only [strengthCreate, clip1000_zero]
    linarith

/-! ### Constraint semantics and the add_element constraints (C9) -/

/-- Value of a linear expression under an assignment of the variables. -/
def LinExpr.valueAt (e : LinExpr) (vals : Var → ℚ) : ℚ :=
  e.terms.foldl (fun acc t => acc + t.2 * vals t.1) e.const

/-- Satisfaction of a constraint under an assignment (`expression OP 0`). -/
def Constraint.holdsAt (c : Constraint) (vals : Var → ℚ) : Prop :=
  match c.op with
  | RelOp.le => c.expr.valueAt vals ≤ 0
  | RelOp.eq => c.expr.valueAt vals = 0
  | RelOp.ge => 0 ≤ c.expr.valueAt vals

/-- Horizontal containment is guaranteed for an area geometry when every
assignment satisfying the four add_element constraints keeps the
element's right edge within the area's right edge. -/
def hContainGuaranteed (ax ay aw ah : ℚ) : Prop :=
  ∀ vals : Var → ℚ,
    vals 0 = ax → vals 1 = ay → vals 2 = aw → vals 3 = ah →
    (∀ c ∈ addElementConstraints (Element.new 0) (Element.new 4) 0, c.holdsAt vals) →
    vals 4 + vals 6 ≤ ax + aw

/-- Counterexample to the final clause of C9: for the area (0, 0, 60, 50)
the submitted constraints do guarantee horizontal containment although
area.x + area.width = 60 differs from area.y + area.height = 50, so
containment does not hold only when the two sums are equal. -/
theorem c9_only_when_counterexample :
    hContainGuaranteed 0 0 60 50 ∧ ((0 : ℚ) + 60 ≠ 0 + 50) := by
  constructor
  · intro vals h0 h1 h2 h3 hc
    have h4 := hc (relate 2 (Element.new 4).right RelOp.le REQUIRED (Element.new 0).bottom)
      (by simp [addElementConstraints])
    simp only [Constraint.holdsAt, relate, LinExpr.sub, Element.right, Element.bottom,
      LinExpr.valueAt, List.foldl_cons, List.foldl_nil, List.map_cons, List.map_nil,
      List.cons_append, List.nil_append, Element.new, qSub_eq, qAdd_eq] at h4
    norm_num at h4
    linarith
  · norm_num

/-- C9 (amended): the four required constraints submitted by add_element
are exactly `e.x ≥ area.x`, `e.y ≥ area.y`,
`e.x + e.width ≤ area.y + area.height` and
`e.y + e.height ≤ area.y + area.height` (the right edge is bounded by
the area's bottom edge, as in the source); consequently the submitted
bound guarantees horizontal containment exactly when
`area.y + area.height ≤ area.x + area.width` (not only when the two
sums are equal). -/
theorem c9_add_element_constraints :
    (∀ (area e : Element) (b : Nat) (vals : Var → ℚ),
      (∀ c ∈ addElementConstraints area e b, c.holdsAt vals) ↔
        (vals area.x ≤ vals e.x ∧ vals area.y ≤ vals e.y ∧
         vals e.x + vals e.width ≤ vals area.y + vals area.height ∧
         vals e.y + vals e.height ≤ vals area.y + vals area.height)) ∧
    (∀ ax ay aw ah : ℚ, hContainGuaranteed ax ay aw ah ↔ ay + ah ≤ ax + aw) := by
  have hmain : ∀ (area e : Element) (b : Nat) (vals : Var → ℚ),
      (∀ c ∈ addElementConstraints area e b, c.holdsAt vals) ↔
        (vals area.x ≤ vals e.x ∧ vals area.y ≤ vals e.y ∧
         vals e.x + vals e.width ≤ vals area.y + vals area.height ∧
         vals e.y + vals e.height ≤ vals area.y + vals area.height) := by
    intro area e b vals
    simp only [addElementConstraints, List.mem_cons, List.not_mem_nil, or_false,
      forall_eq_or_imp, forall_eq, Constraint.holdsAt, relate, LinExpr.sub,
      Element.left, Element.right, Element.top, Element.bottom, LinExpr.ofVar,
      List.map_cons, List.map_nil, List.cons_append, List.nil_append,
      LinExpr.valueAt, List.foldl_cons, List.foldl_nil, qSub_eq, qAdd_eq]
    constructor
    · rintro ⟨h1, h2, h3, h4⟩
      refine ⟨by linarith, by linarith, by linarith, by linarith⟩
    · rintro ⟨h1, h2, h3, h4⟩
      refine ⟨by linarith, by linarith, by linarith, by linarith⟩
  constructor
  · exact hmain
  · intro ax ay aw ah
    constructor
    · intro hg
      have hv := hg (fun v =>
        if v = 0 then ax else if v = 1 then ay else if v = 2 then aw
        else if v = 3 then ah else if v = 4 then ax
        else if v = 6 then ay + ah - ax else if v = 7 then ah else ay)
        (by norm_num) (by norm_num) (by norm_num) (by norm_num)
      simp only at hv
      norm_num at hv
      refine le_of_eq_of_le (by ring) (hv ?_)
      rw [hmain]
      norm_num [Element.new]
    · intro hle vals h0 h1 h2 h3 hc
      rw [hmain] at hc
      obtain ⟨hc1, hc2, hc3, hc4⟩ := hc
      simp only [Element.new] at hc3
      rw [h1, h3] at hc3
      linarith

/-! ### Strength dominance (C3) -/

/-- A STRONG constraint `x = 4` (unit coefficient). -/
def c3strong : Constraint := ⟨1, ⟨[(0, 1)], -4⟩, RelOp.eq, STRONG⟩

/-- A MEDIUM constraint `10000 x = 0`: mutually exclusive with
`c3strong`, but with a disparately scaled expression. -/
def c3mediumScaled : Constraint := ⟨2, ⟨[(0, 10000)], 0⟩, RelOp.eq, MEDIUM⟩

/-- Adding the two mutually exclusive constraints of the C3
counterexample to a fresh solver. -/
def c3cxRun : Solver × Option SolverError :=
  Solver.new.addConstraintsTx [c3strong, c3mediumScaled]

/-- The two elements of the C3 example pair. -/
def c3elemA : Element := Element.new 20

/-- The second element of the C3 example pair. -/
def c3elemB : Element := Element.new 24

/-- The required constraint `widthA + widthB = 12` that makes the C3
example pair mutually exclusive. -/
def c3required : Constraint := ⟨3, ⟨[(22, 1), (26, 1)], -12⟩, RelOp.eq, REQUIRED⟩

/-- The has_width constraint of the C3 example pair (STRONG, width 4). -/
def c3cW : Constraint := c3elemA.hasWidth 4 4

/-- The has_proportional_width constraint of the C3 example pair
(MEDIUM, ratio 2). -/
def c3cP : Constraint := c3elemA.hasProportionalWidth c3elemB 2 5

/-- The C3 example pair added after the required constraint, strong
constraint first. -/
def c3runAB : Solver × Option SolverError :=
  Solver.new.addConstraintsTx [c3required, c3cW, c3cP]

/-- The C3 example pair added after the required constraint, medium
constraint first. -/
def c3runBA : Solver × Option SolverError :=
  Solver.new.addConstraintsTx [c3required, c3cP, c3cW]

/-- Counterexample to C3 as stated: `c3strong` (STRONG) and
`c3mediumScaled` (MEDIUM) are mutually exclusive non-required
constraints at different strengths, both are added successfully, yet the
solved state violates the higher-strength constraint (x resolves to 0,
not 4) and satisfies the lower-strength one exactly: violations enter
the objective scaled by the expression coefficients. -/
theorem c3_strength_dominance_counterexample :
    (¬ ∃ vals : Var → ℚ, c3strong.holdsAt vals ∧ c3mediumScaled.holdsAt vals) ∧
    MEDIUM < STRONG ∧ STRONG < REQUIRED ∧
    c3cxRun.2 = none ∧
    c3cxRun.1.resolvedValue 0 = 0 ∧
    ¬ c3strong.holdsAt c3cxRun.1.resolvedValue ∧
    c3mediumScaled.holdsAt c3cxRun.1.resolvedValue := by
  have hv : c3cxRun.1.resolvedValue 0 = 0 := by decide
  refine ⟨?_, by norm_num [MEDIUM, STRONG], by norm_num [STRONG, REQUIRED],
    by decide, hv, ?_, ?_⟩
  · rintro ⟨vals, h1, h2⟩
    simp only [Constraint.holdsAt, c3strong, c3mediumScaled, LinExpr.valueAt,
      List.foldl_cons, List.foldl_nil] at h1 h2
    linarith
  · simp only [Constraint.holdsAt, c3strong, LinExpr.valueAt,
      List.foldl_cons, List.foldl_nil]
    rw [hv]
    norm_num
  · simp only [Constraint.holdsAt, c3mediumScaled, LinExpr.valueAt,
      List.foldl_cons, List.foldl_nil]
    rw [hv]
    norm_num

/-- C3 (amended): for mutually exclusive constraints whose expressions
are commensurately scaled, such as the pair built by has_width at STRONG
and has_proportional_width at MEDIUM (both with unit coefficient on the
tied width) made mutually exclusive by a required sum constraint, the
solved state satisfies the higher-strength constraint exactly and
violates only the lower-strength one, identically for either insertion
order; with disparately scaled expressions the lower-strength constraint
can win, because violations enter the objective multiplied by the
expression coefficients. -/
theorem c3_strength_dominance_amended :
    (¬ ∃ vals : Var → ℚ,
        c3required.holdsAt vals ∧ c3cW.holdsAt vals ∧ c3cP.holdsAt vals) ∧
    MEDIUM < STRONG ∧
    c3runAB.2 = none ∧ c3runBA.2 = none ∧
    c3runAB.1.resolvedValue 22 = 4 ∧ c3runAB.1.resolvedValue 26 = 8 ∧
    c3runBA.1.resolvedValue 22 = 4 ∧ c3runBA.1.resolvedValue 26 = 8 ∧
    c3cW.holdsAt c3runAB.1.resolvedValue ∧
    (¬ c3cP.holdsAt c3runAB.1.resolvedValue) ∧
    c3required.holdsAt c3runAB.1.resolvedValue ∧
    c3cW.holdsAt c3runBA.1.resolvedValue ∧
    (¬ c3cP.holdsAt c3runBA.1.resolvedValue) ∧
    c3required.holdsAt c3runBA.1.resolvedValue := by
  have ha22 : c3runAB.1.resolvedValue 22 = 4 := by decide
  have ha26 : c3runAB.1.resolvedValue 26 = 8 := by decide
  have hb22 : c3runBA.1.resolvedValue 22 = 4 := by decide
  have hb26 : c3runBA.1.resolvedValue 26 = 8 := by decide
  refine ⟨?_, by norm_num [MEDIUM, STRONG], by decide, by decide,
    ha22, ha26, hb22, hb26, ?_, ?_, ?_, ?_, ?_, ?_⟩
  · rintro ⟨vals, h1, h2, h3⟩
    simp only [Constraint.holdsAt, c3required, c3cW, c3cP, Element.hasWidth,
      Element.hasProportionalWidth, relate, LinExpr.sub, LinExpr.ofVar,
      LinExpr.ofConst, LinExpr.divBy, c3elemA, c3elemB, Element.new,
      List.map_cons, List.map_nil, List.cons_append, List.nil_append,
      LinExpr.valueAt, List.foldl_cons, List.foldl_nil,
      qSub_eq, qAdd_eq, qDiv_eq] at h1 h2 h3
    norm_num at h1 h2 h3
    linarith
  all_goals
    simp only [Constraint.holdsAt, c3required, c3cW, c3cP, Element.hasWidth,
      Element.hasProportionalWidth, relate, LinExpr.sub, LinExpr.ofVar,
      LinExpr.ofConst, LinExpr.divBy, c3elemA, c3elemB, Element.new,
      List.map_cons, List.map_nil, List.cons_append, List.nil_append,
      LinExpr.valueAt, List.foldl_cons, List.foldl_nil,
      qSub_eq, qAdd_eq, qDiv_eq]
  · rw [ha22]
    norm_num
  · rw [ha22, ha26]
    norm_num
  · rw [ha22, ha26]
    norm_num
  · rw [hb22]
    norm_num
  · rw [hb22, hb26]
    norm_num
  · rw [hb22, hb26]
    norm_num

/-! ### Change extraction lemmas (C6, C10) -/

/-- Left-biased choice on options. -/
def optOr {β : Type} : Option β → Option β → Option β
  | some x, _ => some x
  | none, b => b

theorem optOr_assoc {β : Type} (a b c : Option β) :
    optOr (optOr a b) c = optOr a (optOr b c) := by
  cases a <;> cases b <;> rfl

theorem optOr_none_right {β : Type} (a : Option β) : optOr a none = a := by
  cases a <;> rfl

theorem alookup_cons {α β : Type} [DecidableEq α] (v : α) (c : α × β) (m : List (α × β)) :
    alookup v (c :: m) = optOr (alookup v [c]) (alookup v m) := by
  simp only [alookup]
  split <;> rfl

theorem alookup_append {α β : Type} [DecidableEq α] (v : α) (xs ys : List (α × β)) :
    alookup v (xs ++ ys) = optOr (alookup v xs) (alookup v ys) := by
  induction xs with
  | nil => rfl
  | cons c t ih =>
    rw [List.cons_append, alookup_cons, ih, alookup_cons v c t, optOr_assoc]

theorem extendAL_cons {α β : Type} (m : List (α × β)) (c : α × β) (cs : List (α × β)) :
    extendAL m (c :: cs) = extendAL (c :: m) cs := rfl

theorem alookup_extendAL {α β : Type} [DecidableEq α] (v : α) (cs : List (α × β)) :
    ∀ m, alookup v (extendAL m cs) = optOr (alookup v cs.reverse) (alookup v m) := by
  induction cs with
  | nil => intro m; rfl
  | cons c t ih =>
    intro m
    rw [extendAL_cons, ih (c :: m), List.reverse_cons, alookup_append,
      alookup_cons v c m, ← optOr_assoc]

theorem alookup_eq_none_of_keys_ne {α β : Type} [DecidableEq α] (v : α)
    (l : List (α × β)) (h : ∀ q ∈ l, q.1 ≠ v) : alookup v l = none := by
  induction l with
  | nil => rfl
  | cons c t ih =>
    simp only [alookup]
    rw [if_neg (h c (List.mem_cons_self c t))]
    exact ih (fun q hq => h q (List.mem_cons_of_mem c hq))

theorem alookup_extendAL_not_mem {α β : Type} [DecidableEq α] (v : α)
    (cs m : List (α × β)) (h : ∀ q ∈ cs, q.1 ≠ v) :
    alookup v (extendAL m cs) = alookup v m := by
  rw [alookup_extendAL,
    alookup_eq_none_of_keys_ne v cs.reverse
      (fun q hq => h q (List.mem_reverse.mp hq))]
  rfl

theorem nodup_keys_unique {α β : Type} [DecidableEq α] {l : List (α × β)}
    (h : (l.map Prod.fst).Nodup) {p q : α × β}
    (hp : p ∈ l) (hq : q ∈ l) (hk : p.1 = q.1) : p = q := by
  induction l with
  | nil => cases hp
  | cons a t ih =>
    rw [List.map_cons, List.nodup_cons] at h
    rcases List.mem_cons.mp hp with rfl | hp2
    · rcases List.mem_cons.mp hq with rfl | hq2
      · rfl
      · exact absurd (hk ▸ List.mem_map_of_mem Prod.fst hq2) h.1
    · rcases List.mem_cons.mp hq with rfl | hq2
      · exact absurd (hk ▸ List.mem_map_of_mem Prod.fst hp2) h.1
      · exact ih h.2 hp2 hq2

theorem alookup_extendAL_mem {α β : Type} [DecidableEq α] (v : α) (val : β)
    (cs : List (α × β)) (hnd : (cs.map Prod.fst).Nodup) (hm : (v, val) ∈ cs) :
    ∀ m, alookup v (extendAL m cs) = some val := by
  induction cs with
  | nil => cases hm
  | cons c t ih =>
    rw [List.map_cons, List.nodup_cons] at hnd
    intro m
    rw [extendAL_cons]
    rcases List.mem_cons.mp hm with heq | hmem
    · cases heq
      rw [alookup_extendAL_not_mem v t ((v, val) :: m) ?_]
      · simp [alookup]
      · intro q hq hqv
        refine hnd.1 ?_
        show v ∈ List.map Prod.fst t
        rw [← hqv]
        exact List.mem_map_of_mem Prod.fst hq
    · exact ih hnd.2 hmem ((c) :: m)

theorem fetchOne_key (s : Solver) (p : Var × TabSymbol) (q : Var × ℚ)
    (h : fetchOne s p = some q) : q.1 = p.1 ∧ q.2 = s.symbolValue p.2 := by
  simp only [fetchOne] at h
  split at h
  · cases h
    exact ⟨rfl, rfl⟩
  · simp at h

theorem changes_keys_nodup (s : Solver) (l : List (Var × TabSymbol))
    (h : (l.map Prod.fst).Nodup) :
    ((l.filterMap (fetchOne s)).map Prod.fst).Nodup := by
  induction l with
  | nil => simp
  | cons a t ih =>
    rw [List.map_cons, List.nodup_cons] at h
    rw [List.filterMap_cons]
    cases hfo : fetchOne s a with
    | none => exact ih h.2
    | some q =>
      rw [List.map_cons, List.nodup_cons]
      refine ⟨?_, ih h.2⟩
      intro hmem
      rcases List.mem_map.mp hmem with ⟨q2, hq2mem, hq2key⟩
      rcases List.mem_filterMap.mp hq2mem with ⟨p2, hp2mem, hp2⟩
      have h1 := (fetchOne_key s a q hfo).1
      have h2 := (fetchOne_key s p2 q2 hp2).1
      have : a.1 = p2.1 := by rw [← h1, ← hq2key, h2]
      exact h.1 (this ▸ List.mem_map_of_mem Prod.fst hp2mem)

theorem qAbs_qSub_self (x : ℚ) : qAbs (qSub x x) = 0 := by
  rw [qSub_eq, sub_self, qAbs_eq, abs_zero]

theorem solverTol_pos : 0 < solverTol := by
  rw [solverTol, Rat.mkRat_eq_div]
  norm_num

theorem fetch_twice_empty (s : Solver) (h : (s.vars.map Prod.fst).Nodup) :
    ((s.fetchChanges.2).fetchChanges).1 = [] := by
  have hnodup := changes_keys_nodup s s.vars h
  apply List.filterMap_eq_nil_iff.mpr
  intro p hp
  have hp2 : p ∈ s.vars := hp
  cases hfo : fetchOne s p with
  | some q =>
    have hk := fetchOne_key s p q hfo
    have hqmem : (p.1, q.2) ∈ s.vars.filterMap (fetchOne s) := by
      have hq : q = (p.1, q.2) := Prod.ext hk.1 rfl
      exact hq ▸ List.mem_filterMap.mpr ⟨p, hp2, hfo⟩
    have hl := alookup_extendAL_mem p.1 q.2 _ hnodup hqmem s.snapshot
    show (if solverTol < qAbs (qSub (s.symbolValue p.2)
        ((alookup p.1 (extendAL s.snapshot (s.vars.filterMap (fetchOne s)))).getD 0))
      then some (p.1, s.symbolValue p.2) else none) = none
    rw [hl, Option.getD_some, hk.2, qAbs_qSub_self,
      if_neg (not_lt.mpr (le_of_lt solverTol_pos))]
  | none =>
    have hnot : ∀ q ∈ s.vars.filterMap (fetchOne s), q.1 ≠ p.1 := by
      intro q hq hqp
      rcases List.mem_filterMap.mp hq with ⟨p2, hp2mem, hfo2⟩
      have hk2 := (fetchOne_key s p2 q hfo2).1
      have hpp : p2 = p := nodup_keys_unique h hp2mem hp2 (by rw [← hk2, hqp])
      rw [hpp] at hfo2
      rw [hfo] at hfo2
      cases hfo2
    have hsnap2 := alookup_extendAL_not_mem p.1 (s.vars.filterMap (fetchOne s))
      s.snapshot hnot
    simp only [fetchOne] at hfo
    show (if solverTol < qAbs (qSub (s.symbolValue p.2)
        ((alookup p.1 (extendAL s.snapshot (s.vars.filterMap (fetchOne s)))).getD 0))
      then some (p.1, s.symbolValue p.2) else none) = none
    rw [hsnap2]
    exact hfo

theorem extendAL_nil {α β : Type} (m : List (α × β)) : extendAL m [] = m := rfl

/-- A small concrete solver: one edit variable (id 0) suggested to 10. -/
def tinySolver : Solver :=
  match Solver.new.addEditVariable 0 STRONG with
  | Except.ok s =>
    match s.suggestValue 0 10 defaultFuel with
    | Except.ok s2 => s2
    | Except.error _ => Solver.new
  | Except.error _ => Solver.new

/-- A small concrete layout over `tinySolver` with one element and no
fetched values yet. -/
def tinyLayout : Layout := ⟨tinySolver, Element.new 0, [Element.new 0], [], 0⟩

/-- C6: with no intervening mutation, a second fetch_changes returns an
empty change set; consequently a second get_rects merges no new values
and returns the same rects. -/
theorem c6_fetch_changes_idempotent (s : Solver) (l : Layout)
    (hs : (s.vars.map Prod.fst).Nodup) (hl : (l.solver.vars.map Prod.fst).Nodup) :
    ((s.fetchChanges.2).fetchChanges).1 = [] ∧
    ((l.getRects.2).getRects).1 = l.getRects.1 ∧
    ((l.getRects.2).getRects).2.values = (l.getRects.2).values := by
  have h2 := fetch_twice_empty l.solver hl
  refine ⟨fetch_twice_empty s hs, ?_, ?_⟩
  · show ((l.getRects.2).getRects).1 = l.getRects.1
    simp only [Layout.getRects]
    rw [h2, extendAL_nil]
    rfl
  · show ((l.getRects.2).getRects).2.values = (l.getRects.2).values
    simp only [Layout.getRects]
    rw [h2, extendAL_nil]

/-- Witness for C6 at the small concrete solver and layout. -/
theorem c6_fetch_changes_idempotent_witness :
    ((tinySolver.vars.map Prod.fst).Nodup ∧ (tinyLayout.solver.vars.map Prod.fst).Nodup) ∧
    (((tinySolver.fetchChanges.2).fetchChanges).1 = [] ∧
     ((tinyLayout.getRects.2).getRects).1 = tinyLayout.getRects.1 ∧
     ((tinyLayout.getRects.2).getRects).2.values = (tinyLayout.getRects.2).values) :=
  ⟨⟨by decide, by decide⟩,
   c6_fetch_changes_idempotent tinySolver tinyLayout (by decide) (by decide)⟩

/-! ### Accumulation of fetched values (C10) -/

/-- Iterate get_rects n times, keeping the layout. -/
def Layout.iterRects (l : Layout) : Nat → Layout
  | 0 => l
  | n + 1 => (l.getRects.2).iterRects n

/-- The concatenation of the change sets returned by the first n
get_rects calls. -/
def Layout.allChanges (l : Layout) : Nat → List (Var × ℚ)
  | 0 => []
  | n + 1 => (l.solver.fetchChanges).1 ++ (l.getRects.2).allChanges n

/-- The value a variable received in the most recent change set that
included it, if any. -/
def lastFetched (cs : List (Var × ℚ)) (v : Var) : Option ℚ :=
  alookup v cs.reverse

theorem lastFetched_append (xs ys : List (Var × ℚ)) (v : Var) :
    lastFetched (xs ++ ys) v = optOr (lastFetched ys v) (lastFetched xs v) := by
  simp only [lastFetched, List.reverse_append, alookup_append]

theorem iterRects_values (n : Nat) : ∀ (l : Layout) (v : Var),
    alookup v (l.iterRects n).values =
      optOr (lastFetched (l.allChanges n) v) (alookup v l.values) := by
  induction n with
  | zero =>
    intro l v
    rfl
  | succ m ih =>
    intro l v
    show alookup v ((l.getRects.2).iterRects m).values = _
    rw [ih (l.getRects.2) v]
    show optOr (lastFetched ((l.getRects.2).allChanges m) v)
        (alookup v (extendAL l.values (l.solver.fetchChanges).1)) =
      optOr (lastFetched ((l.solver.fetchChanges).1 ++ (l.getRects.2).allChanges m) v)
        (alookup v l.values)
    rw [alookup_extendAL, lastFetched_append, optOr_assoc]
    rfl

/-- C10: a variable never contained in any fetch_changes result since
construction is reported as 0 by get_rects/value; any other variable is
reported at the value of the most recent fetch_changes that included it
(fetched values accumulate and are never discarded). -/
theorem c10_value_accumulation (l : Layout) (n : Nat) (v : Var)
    (h : l.values = []) :
    (l.iterRects n).value v = (lastFetched (l.allChanges n) v).getD 0 := by
  rw [Layout.value, iterRects_values n l v, h]
  cases lastFetched (l.allChanges n) v <;> rfl

/-- Witness for C10 at the small concrete layout: after one get_rects
call the edit variable reads back its fetched value. -/
theorem c10_value_accumulation_witness :
    tinyLayout.values = [] ∧
    (tinyLayout.iterRects 1).value 0 = (lastFetched (tinyLayout.allChanges 1) 0).getD 0 :=
  ⟨rfl, c10_value_accumulation tinyLayout 1 0 rfl⟩

/-- Witness for C8 (amended) at w1 = 2 against the maximal lower-level
combination (1000, 1000). -/
theorem c8_strength_arithmetic_witness :
    mkRat 1001 1000 < (2 : ℚ) ∧ strengthCreate 0 1000 1000 < strengthCreate 2 0 0 :=
  ⟨by decide, c8_strength_arithmetic.2 2 1000 1000 (by decide)⟩
